import Mathlib

set_option maxRecDepth 100000

/-!
Shallow embedding of the real-time interview relay of this repository
(src/pure_gemini_handler.py `FixedGeminiLiveHandler`, with the near-duplicate
variant src/pure_websocket_server.py `WorkingGeminiLiveHandler` captured by a
configuration record, exactly as the two files differ only in threshold
constants; src/api/websocket.py `GeminiLiveHandler` shares the same
`end_interview` guard and transcript logic).

Conventions of the embedding:
 - byte strings are `List Nat`; wall-clock instants are `Nat` (milliseconds in
   the audio batcher, seconds in the session records);
 - uuid minting is modelled by a fresh-`Nat` counter (uuids are only ever
   compared for identity);
 - the cooperative tasks are modelled as pure step functions over explicit
   state, run over explicit event schedules;
 - fallible collaborators (the websocket, the summary model) are modelled by
   an environment record saying which operation succeeds, mirroring the
   `try/except` structure of the source.
-/

/-- The in-memory session record (`SimpleInterview` in pure_gemini_handler.py):
id, status ('active'/'completed'/'failed'), start/end time, duration, full
transcript and summary. The uuid id is modelled as a `Nat`. -/
structure SimpleInterview where
  id : Nat
  status : String
  startedAt : Nat
  endedAt : Option Nat
  durationSeconds : Nat
  fullTranscript : String
  summary : String
deriving DecidableEq, Repr

/-- `SimpleInterview.duration_formatted`: `f"{minutes}:{seconds:02d}"`. -/
def durationFormatted (durationSeconds : Nat) : String :=
  let minutes := durationSeconds / 60
  let seconds := durationSeconds % 60
  toString minutes ++ ":" ++ (if seconds < 10 then "0" ++ toString seconds else toString seconds)

/-- Python `str.upper()`. Extensionally `String.toUpper`, but written by
structural recursion over the character list: the claims are settled by
evaluation, and the position-based recursion of `String.mapAux` does not
reduce in the kernel. -/
def pyUpper (s : String) : String := ⟨s.data.map Char.toUpper⟩

/-- Python `str.strip()`: whitespace dropped from both ends, written by
structural recursion for the same reason as `pyUpper`. -/
def pyStrip (s : String) : String :=
  ⟨((s.data.dropWhile Char.isWhitespace).reverse.dropWhile Char.isWhitespace).reverse⟩

/-- One transcript record (`SimpleTranscript` in pure_gemini_handler.py); the
uuid primary key and the timestamp are omitted: no claim reads them, and the
spec itself says timestamp order is not trusted. -/
structure SimpleTranscript where
  interviewId : Nat
  speaker : String
  text : String
  sequenceNumber : Nat
deriving DecidableEq, Repr

/-- Messages the server sends to the client over the websocket (section 6 of
the spec; `json.dumps` payloads in the source). -/
inductive ClientMsg where
  | interviewStarted (interviewId : Nat)
  | liveTranscript (speaker text : String)
  | audioStreamStart (streamId : Nat) (sampleRate : Nat) (format : String)
  | audioChunkResponse (streamId : Nat) (audio : List Nat) (mimeType : String)
  | audioStreamEnd (streamId : Nat)
  | interviewEnded (interviewId : Nat) (duration summary : String)
      (totalTranscripts : Option Nat) (error : Option String)
deriving DecidableEq, Repr

/-- Messages sent upstream to the Gemini Live session
(`session.send_realtime_input` calls in the source). -/
inductive UpstreamMsg where
  | realtimeAudio (data : List Nat)
  | realtimeText (s : String)
  | audioStreamEnd
deriving DecidableEq, Repr

def isStreamStartMsg : ClientMsg → Bool
  | ClientMsg.audioStreamStart _ _ _ => true
  | _ => false

def isStreamEndMsg : ClientMsg → Bool
  | ClientMsg.audioStreamEnd _ => true
  | _ => false

def isEndedMsg : ClientMsg → Bool
  | ClientMsg.interviewEnded _ _ _ _ _ => true
  | _ => false

/-! ## Inbound Audio Batcher
`handle_client_messages` (the `audio_chunk` branch) and `audio_sender` in
pure_gemini_handler.py / pure_websocket_server.py. The two handler variants
differ only in constants, captured by a configuration record. -/

/-- The constants of one batcher variant. `minFrameLen` is the strict lower
bound on accepted frame lengths (`len(audio_data) > 0` in
pure_gemini_handler.py, `len(audio_data) > 32` in pure_websocket_server.py);
delays are in milliseconds. -/
structure BatcherConfig where
  minFrameLen : Nat
  flushDelayMs : Nat
  silenceMs : Nat
deriving DecidableEq, Repr

/-- FixedGeminiLiveHandler: `audio_chunk_timeout = 0.1`, `silence_threshold = 1.0`. -/
def fixedConfig : BatcherConfig := ⟨0, 100, 1000⟩

/-- WorkingGeminiLiveHandler: accepts only frames longer than 32 bytes,
`audio_chunk_timeout = 0.2`, `silence_threshold = 1.5`. -/
def workingConfig : BatcherConfig := ⟨32, 200, 1500⟩

/-- The mutable state shared by the client-message reader and `audio_sender`:
`pending_audio_chunks` and `last_audio_time` (None when unset). -/
structure BatcherState where
  pendingAudioChunks : List (List Nat)
  lastAudioTime : Option Nat
deriving DecidableEq, Repr

/-- The `audio_chunk` branch of `handle_client_messages`: a frame longer than
the variant's bound is appended to the pending list and its arrival time
recorded; anything else is silently dropped. -/
def submit (cfg : BatcherConfig) (st : BatcherState) (now : Nat) (frame : List Nat) :
    BatcherState :=
  if frame.length > cfg.minFrameLen then
    { pendingAudioChunks := st.pendingAudioChunks ++ [frame], lastAudioTime := some now }
  else st

/-- One iteration of the `audio_sender` loop body. Matching the source: if
pending frames exist and the flush delay has elapsed since the last frame,
join them (clearing the list first) and forward the payload when it is
non-empty, leaving `last_audio_time` untouched; else if the silence threshold
has elapsed, forward one upstream stream-end and reset `last_audio_time` to
None; else do nothing. `now > lat + d` renders Python's
`time.time() - self.last_audio_time > d` over naturals. Python tests
`self.last_audio_time` for truthiness; wall-clock values are positive, so
`Option` faithfully renders the None/set distinction. -/
def audioSenderTick (cfg : BatcherConfig) (st : BatcherState) (now : Nat) :
    BatcherState × List UpstreamMsg :=
  match st.lastAudioTime with
  | none => (st, [])
  | some lat =>
    if st.pendingAudioChunks ≠ [] ∧ now > lat + cfg.flushDelayMs then
      let combinedAudio := st.pendingAudioChunks.flatten
      let st' := { st with pendingAudioChunks := [] }
      if combinedAudio.length > 0 then (st', [UpstreamMsg.realtimeAudio combinedAudio])
      else (st', [])
    else if now > lat + cfg.silenceMs then
      ({ st with lastAudioTime := none }, [UpstreamMsg.audioStreamEnd])
    else (st, [])

/-- A batcher event: a client frame arriving, or one `audio_sender` tick. -/
inductive BatcherEvent where
  | frame (data : List Nat)
  | tick
deriving DecidableEq, Repr

def batcherStep (cfg : BatcherConfig) (st : BatcherState) (now : Nat) (e : BatcherEvent) :
    BatcherState × List UpstreamMsg :=
  match e with
  | BatcherEvent.frame d => (submit cfg st now d, [])
  | BatcherEvent.tick => audioSenderTick cfg st now

/-- Run the batcher over a timestamped event schedule, collecting the
timestamped upstream messages. -/
def batcherRun (cfg : BatcherConfig) (st : BatcherState) :
    List (Nat × BatcherEvent) → BatcherState × List (Nat × UpstreamMsg)
  | [] => (st, [])
  | e :: rest =>
    let r1 := batcherStep cfg st e.1 e.2
    let r2 := batcherRun cfg r1.1 rest
    (r2.1, r1.2.map (fun m => (e.1, m)) ++ r2.2)

/-- The silence scenario of the spec: frames at t = 0, 0.05 and 0.1 s and none
afterward, with the FixedGeminiLiveHandler 50 ms tick running until t = 4.95 s
(times in ms, events in chronological order, a frame before the tick sharing
its timestamp). -/
def silenceSchedule : List (Nat × BatcherEvent) :=
  [(0, BatcherEvent.frame [1]), (0, BatcherEvent.tick),
   (50, BatcherEvent.frame [2]), (50, BatcherEvent.tick),
   (100, BatcherEvent.frame [3])] ++
    (List.range 98).map (fun k => (100 + 50 * k, BatcherEvent.tick))

/-! ## Outbound Audio Streamer
`audio_streamer` in pure_gemini_handler.py (identical in
pure_websocket_server.py): consumes the internal queue; a fragment opens a
stream when none is open and is emitted as a chunk tagged with the open
stream id; an `end_turn` marker closes the open stream (or is a no-op). -/

/-- One item of the internal `audio_buffer` queue: an AI audio fragment
(`{'data': ..., 'mime_type': ...}`) or the turn boundary (`{'end_turn': True}`). -/
inductive QueueItem where
  | fragment (data : List Nat) (mimeType : String)
  | endTurn
deriving DecidableEq, Repr

/-- The streamer's loop state: the local `current_stream_id` (None when no
stream is open) plus the fresh-uuid counter modelling `str(uuid.uuid4())`. -/
structure StreamerState where
  currentStreamId : Option Nat
  nextStreamId : Nat
deriving DecidableEq, Repr

/-- Processing of one dequeued item by `audio_streamer`: mirrors the source's
`end_turn` branch, the mint-and-start branch, and the chunk send (sample rate
24000, format pcm_16 as in the source). -/
def streamerStep (st : StreamerState) (item : QueueItem) : StreamerState × List ClientMsg :=
  match item with
  | QueueItem.endTurn =>
    match st.currentStreamId with
    | some sid => ({ st with currentStreamId := none }, [ClientMsg.audioStreamEnd sid])
    | none => (st, [])
  | QueueItem.fragment data mime =>
    match st.currentStreamId with
    | some sid => (st, [ClientMsg.audioChunkResponse sid data mime])
    | none =>
      let sid := st.nextStreamId
      ({ currentStreamId := some sid, nextStreamId := sid + 1 },
       [ClientMsg.audioStreamStart sid 24000 "pcm_16",
        ClientMsg.audioChunkResponse sid data mime])

/-- The streamer consuming a finite sequence of queue items (the loop exits,
without any further send, when `is_session_active` turns false or the queue
stays empty). -/
def streamerRun (st : StreamerState) : List QueueItem → StreamerState × List ClientMsg
  | [] => (st, [])
  | item :: rest =>
    let r1 := streamerStep st item
    let r2 := streamerRun r1.1 rest
    (r2.1, r1.2 ++ r2.2)

/-- The `interrupted` branch of `handle_gemini_responses`: it drains
`audio_buffer` with `get_nowait` until empty and touches nothing else — in
particular `current_stream_id`, a local of the `audio_streamer` coroutine, is
unreachable from it. -/
def handleInterrupted (buf : List QueueItem) (st : StreamerState) :
    List QueueItem × StreamerState := ([], st)

/-! ## Transcript Recorder
`save_live_transcript` in pure_gemini_handler.py and pure_websocket_server.py:
appends a trimmed, non-empty utterance with the current counter as its
sequence number, then increments the counter; whitespace-only text is dropped
and leaves the counter unchanged. In these two variants the function body
contains no await, so under the cooperative scheduler each call is atomic: no
other task can interleave between the stamp and the increment, and the calls
compose sequentially. The api/websocket.py variant is different — its counter
increment sits after an awaited DB create — and is modelled separately below
by `apiRecorderRun`. -/

/-- `save_live_transcript` of the pure handlers, acting on the pair
(transcript_counter, transcripts appended so far for this interview). -/
def save_live_transcript (interviewId : Nat) (st : Nat × List SimpleTranscript)
    (speaker text : String) : Nat × List SimpleTranscript :=
  if pyStrip text ≠ "" then
    (st.1 + 1, st.2 ++ [⟨interviewId, speaker, pyStrip text, st.1⟩])
  else st

/-- All `save_live_transcript` calls of one session in order — exact for the
pure handlers, where each call runs atomically (no await inside the body). -/
def recorderRun (interviewId : Nat) (st : Nat × List SimpleTranscript) :
    List (String × String) → Nat × List SimpleTranscript
  | [] => st
  | c :: rest => recorderRun interviewId (save_live_transcript interviewId st c.1 c.2) rest

/-- One cooperative task of the GeminiLiveHandler (api/websocket.py) variant
that appends transcripts: the `save_live_transcript` calls it still has to
issue, and whether it is currently suspended inside one (the row already
created with the stamped counter, the `transcript_counter += 1` after the
await still due). -/
structure ApiTask where
  pending : List (String × String)
  midAppend : Bool
deriving DecidableEq, Repr

/-- Shared state of the api-variant recorder: the handler's
`transcript_counter`, the rows created so far, and the two tasks that invoke
`save_live_transcript` concurrently — the client-message reader (the
`text_input` branch) and the upstream receive loop. -/
structure ApiRecorderState where
  counter : Nat
  db : List SimpleTranscript
  readerTask : ApiTask
  receiverTask : ApiTask
deriving DecidableEq, Repr

/-- One micro-step of api/websocket.py `save_live_transcript` by one task.
The call has two halves separated by a real suspension point:
`sequence_number=self.transcript_counter` is evaluated and the row created
during the awaited `sync_to_async(LiveTranscript.objects.create)` (first
half; the row carries the stamped value), and only after the await returns
does `self.transcript_counter += 1` run (second half). Any other task can be
scheduled between the halves. This variant has no emptiness guard on the
text. -/
def apiTaskStep (interviewId : Nat) (counter : Nat) (db : List SimpleTranscript)
    (task : ApiTask) : Nat × List SimpleTranscript × ApiTask :=
  if task.midAppend then (counter + 1, db, { task with midAppend := false })
  else
    match task.pending with
    | [] => (counter, db, task)
    | c :: rest => (counter, db ++ [⟨interviewId, c.1, c.2, counter⟩], ⟨rest, true⟩)

/-- Run the two appending tasks of the api variant under a cooperative
schedule: `true` schedules the client-reader for one micro-step, `false` the
receive loop. -/
def apiRecorderRun (interviewId : Nat) (s : ApiRecorderState) :
    List Bool → ApiRecorderState
  | [] => s
  | tid :: rest =>
    let r :=
      if tid then
        let x := apiTaskStep interviewId s.counter s.db s.readerTask
        { s with counter := x.1, db := x.2.1, readerTask := x.2.2 }
      else
        let x := apiTaskStep interviewId s.counter s.db s.receiverTask
        { s with counter := x.1, db := x.2.1, receiverTask := x.2.2 }
    apiRecorderRun interviewId r rest

/-! ## Session termination
`generate_summary` and `end_interview` in pure_gemini_handler.py. The
collaborators that can fail are modelled by an environment record: which
branch each `try` takes is exactly which collaborator call succeeds. Inside
`end_interview`'s `try` block the only operations that can raise are the
final `websocket.send` (the upstream flush and `generate_summary` swallow
their own errors), so the `except` path is entered exactly when the client
send fails. -/

/-- The termination environment: the wall-clock second of `datetime.now()` at
termination, the summary collaborator's outcome (`summaryOk` false models
`model.generate_content` raising with message `summaryErr`; true models it
returning `summaryText`), and whether each send succeeds: the upstream
`send_realtime_input(audio_stream_end=True)` flush, the normal
`websocket.send` of `interview_ended`, and the best-effort `websocket.send`
in the `except` branch. -/
structure Env where
  now : Nat
  summaryOk : Bool
  summaryText : String
  summaryErr : String
  upstreamSendOk : Bool
  clientSendOk : Bool
  errorSendOk : Bool
deriving DecidableEq, Repr

/-- `generate_summary`: empty (after strip) transcript short-circuits to a
stock string without calling the collaborator; a successful call returns the
stripped text when non-empty, else a stock string; an exception is caught and
replaced by a message that embeds `str(e)`. Never raises. -/
def generate_summary (env : Env) (transcript : String) : String :=
  if pyStrip transcript = "" then "No conversation content to summarize."
  else if env.summaryOk then
    let summaryText := pyStrip env.summaryText
    if summaryText ≠ "" then summaryText
    else "Summary could not be generated from the conversation."
  else "Summary generation failed due to an error: " ++ env.summaryErr

/-- Transcript assembly in `end_interview`: the transcripts of this interview
in storage order, stably sorted by `sequence_number` (Python's stable
`list.sort`; any stable sort computes the same list, so `insertionSort`
renders it), each rendered `f"{t.speaker.upper()}: {t.text}"`, joined by
newlines. -/
def assembleTranscript (interviewId : Nat) (db : List SimpleTranscript) : String :=
  let interviewTranscripts :=
    (db.filter (fun t => t.interviewId = interviewId)).insertionSort
      (fun a b => a.sequenceNumber ≤ b.sequenceNumber)
  String.intercalate "\n"
    (interviewTranscripts.map (fun t => pyUpper t.speaker ++ ": " ++ t.text))

/-- What one `end_interview` call produces: the session record afterwards and
the messages sent to the client and upstream. -/
structure EndResult where
  interview : SimpleInterview
  clientMsgs : List ClientMsg
  upstreamMsgs : List UpstreamMsg
deriving DecidableEq, Repr

/-- `end_interview`. Guarded on `status == 'active'`; the guard and the
status update run with no intervening await, so concurrent triggers observe
the updated status and the sequential composition below is exact. The `try`
body sets status/times/duration, assembles the transcript, obtains the
summary (which cannot raise), attempts the upstream flush (failures swallowed
by two nested `try`s), then sends `interview_ended` with the formatted
duration, the summary and `total_transcripts`. If that send raises, status is
forced to 'failed' and a best-effort `interview_ended` (duration '0:00',
stock summary, `error` field) is attempted, its own failure swallowed. -/
def end_interview (iv : SimpleInterview) (db : List SimpleTranscript) (env : Env) : EndResult :=
  if iv.status = "active" then
    let endedAt := env.now
    let durationSeconds := endedAt - iv.startedAt
    let n := (db.filter (fun t => t.interviewId = iv.id)).length
    let full := assembleTranscript iv.id db
    let summary := generate_summary env full
    let iv' : SimpleInterview :=
      { iv with status := "completed", endedAt := some endedAt,
                durationSeconds := durationSeconds, fullTranscript := full,
                summary := summary }
    let upstream := if env.upstreamSendOk then [UpstreamMsg.audioStreamEnd] else []
    if env.clientSendOk then
      { interview := iv'
        clientMsgs := [ClientMsg.interviewEnded iv.id (durationFormatted durationSeconds)
          summary (some n) none]
        upstreamMsgs := upstream }
    else
      { interview := { iv' with status := "failed" }
        clientMsgs :=
          if env.errorSendOk then
            [ClientMsg.interviewEnded iv.id "0:00" "Interview ended with errors."
              none (some "websocket send failed")]
          else []
        upstreamMsgs := upstream }
  else { interview := iv, clientMsgs := [], upstreamMsgs := [] }

/-- A connection lifecycle as seen by `end_interview`: every termination
trigger (stop request, inactivity, natural end, task-group error) funnels
into one sequential `end_interview` call, and the orchestrator's `finally`
makes at least one such call; a lifecycle is the list of those calls'
environments, in order. -/
def lifecycle (iv : SimpleInterview) (db : List SimpleTranscript) :
    List Env → SimpleInterview × List ClientMsg
  | [] => (iv, [])
  | env :: rest =>
    let r := end_interview iv db env
    let r2 := lifecycle r.interview db rest
    (r2.1, r.clientMsgs ++ r2.2)

/-- `Interview.duration_formatted` of the Django model (interviews/models.py):
`f"{m}m {s}s"`, or "N/A" when `duration_seconds` is falsy (0 or unset). -/
def durationFormattedApi (durationSeconds : Nat) : String :=
  if durationSeconds ≠ 0 then
    toString (durationSeconds / 60) ++ "m " ++ toString (durationSeconds % 60) ++ "s"
  else "N/A"

/-- `generate_summary` of GeminiLiveHandler (api/websocket.py): no
empty-transcript short-circuit and no stripping; a successful call returns
`response.text` unchanged, and any exception is caught at the collaborator
boundary and replaced by the fixed string "Summary generation failed." -/
def generate_summary_api (env : Env) (_transcript : String) : String :=
  if env.summaryOk then env.summaryText
  else "Summary generation failed."

/-- `end_interview` of GeminiLiveHandler (api/websocket.py). Same
`status == 'active'` guard; the `try` body sets status/times/duration,
assembles the transcript exactly as the pure variant (ordered DB query in
place of the in-memory filter-and-sort), obtains the summary from
`generate_summary` (which cannot raise), saves, then sends `interview_ended`
with the Django-model duration format and no `total_transcripts` or `error`
field; the `except` branch only forces status to 'failed' and saves — it
sends nothing to the client. This variant has no upstream flush. Storage
failures are outside this model: the raising operation modelled is the client
send, the only one exercised by the claims about this variant. -/
def end_interview_api (iv : SimpleInterview) (db : List SimpleTranscript) (env : Env) :
    EndResult :=
  if iv.status = "active" then
    let endedAt := env.now
    let durationSeconds := endedAt - iv.startedAt
    let full := assembleTranscript iv.id db
    let summary := generate_summary_api env full
    let iv' : SimpleInterview :=
      { iv with status := "completed", endedAt := some endedAt,
                durationSeconds := durationSeconds, fullTranscript := full,
                summary := summary }
    if env.clientSendOk then
      { interview := iv'
        clientMsgs := [ClientMsg.interviewEnded iv.id (durationFormattedApi durationSeconds)
          summary none none]
        upstreamMsgs := [] }
    else
      { interview := { iv' with status := "failed" }, clientMsgs := [], upstreamMsgs := [] }
  else { interview := iv, clientMsgs := [], upstreamMsgs := [] }

/-! ## Stream-framing automaton
A checker for the client-side framing discipline: it walks a message trace
holding the id of the currently open stream (`none` when closed), accepting a
stream-start only when closed, and a chunk or stream-end only for the open
id. `framingRun` returns the final open-stream state, or `none` for a trace
that violates the discipline. -/

def framingStep (c : Option Nat) (m : ClientMsg) : Option (Option Nat) :=
  match c, m with
  | none, ClientMsg.audioStreamStart sid _ _ => some (some sid)
  | some sid, ClientMsg.audioChunkResponse sid' _ _ =>
      if sid' = sid then some (some sid) else none
  | some sid, ClientMsg.audioStreamEnd sid' =>
      if sid' = sid then some none else none
  | _, _ => none

def framingRun : Option Nat → List ClientMsg → Option (Option Nat)
  | c, [] => some c
  | c, m :: tr =>
    match framingStep c m with
    | some c' => framingRun c' tr
    | none => none

theorem framingRun_append (c : Option Nat) (t1 t2 : List ClientMsg) :
    framingRun c (t1 ++ t2) =
      match framingRun c t1 with
      | some c' => framingRun c' t2
      | none => none := by
  induction t1 generalizing c with
  | nil => rfl
  | cons m t ih =>
    simp only [List.cons_append, framingRun]
    cases framingStep c m with
    | none => rfl
    | some c' => exact ih c'

theorem framingRun_cons_some (c c' : Option Nat) (m : ClientMsg) (tr : List ClientMsg)
    (h : framingRun c (m :: tr) = some c') :
    ∃ c₁, framingStep c m = some c₁ ∧ framingRun c₁ tr = some c' := by
  cases hstep : framingStep c m with
  | some c₁ => exact ⟨c₁, rfl, by simpa [framingRun, hstep] using h⟩
  | none => simp [framingRun, hstep] at h

theorem streamerStep_framing (st : StreamerState) (item : QueueItem) :
    framingRun st.currentStreamId (streamerStep st item).2 =
      some (streamerStep st item).1.currentStreamId := by
  cases item with
  | endTurn =>
    cases h : st.currentStreamId <;> simp [streamerStep, framingRun, framingStep, h]
  | fragment d m =>
    cases h : st.currentStreamId <;> simp [streamerStep, framingRun, framingStep, h]

/-- Every trace the streamer emits is accepted by the framing automaton, and
the automaton's final state is the streamer's final open-stream id. -/
theorem streamerRun_framing (items : List QueueItem) (st : StreamerState) :
    framingRun st.currentStreamId (streamerRun st items).2 =
      some (streamerRun st items).1.currentStreamId := by
  induction items generalizing st with
  | nil => rfl
  | cons item rest ih =>
    simp only [streamerRun]
    rw [framingRun_append, streamerStep_framing]
    exact ih (streamerStep st item).1

/-- In a trace the automaton accepts from state `c`, any chunk tagged `sid` is
preceded by a stream-start for `sid`, unless stream `sid` was already open in
`c`. -/
theorem framing_chunk_has_start (l₁ : List ClientMsg) :
    ∀ (c c' : Option Nat) (sid : Nat) (d : List Nat) (mt : String) (l₂ : List ClientMsg),
      framingRun c (l₁ ++ ClientMsg.audioChunkResponse sid d mt :: l₂) = some c' →
      (∃ sr fmt, ClientMsg.audioStreamStart sid sr fmt ∈ l₁) ∨ c = some sid := by
  induction l₁ with
  | nil =>
    intro c c' sid d mt l₂ h
    obtain ⟨c₁, hstep, -⟩ := framingRun_cons_some _ _ _ _ h
    right
    cases c with
    | none => simp [framingStep] at hstep
    | some s =>
      by_cases hs : sid = s
      · rw [hs]
      · simp [framingStep, hs] at hstep
  | cons m l ih =>
    intro c c' sid d mt l₂ h
    rw [List.cons_append] at h
    obtain ⟨c₁, hstep, hrest⟩ := framingRun_cons_some _ _ _ _ h
    rcases ih c₁ c' sid d mt l₂ hrest with hstart | hc
    · obtain ⟨sr, fmt, hm⟩ := hstart
      exact Or.inl ⟨sr, fmt, List.mem_cons_of_mem _ hm⟩
    · subst hc
      cases m with
      | audioStreamStart s sr f =>
        cases c with
        | none =>
          have hss : s = sid := by simpa [framingStep] using hstep
          subst hss
          exact Or.inl ⟨sr, f, List.mem_cons_self _ _⟩
        | some s0 => simp [framingStep] at hstep
      | audioChunkResponse s d0 m0 =>
        cases c with
        | none => simp [framingStep] at hstep
        | some s0 =>
          by_cases hs : s = s0
          · have : s0 = sid := by simpa [framingStep, hs] using hstep
            exact Or.inr (by rw [this])
          · simp [framingStep, hs] at hstep
      | audioStreamEnd s =>
        cases c with
        | none => simp [framingStep] at hstep
        | some s0 =>
          by_cases hs : s = s0
          · simp [framingStep, hs] at hstep
          · simp [framingStep, hs] at hstep
      | interviewStarted i => simp [framingStep] at hstep
      | liveTranscript a b => simp [framingStep] at hstep
      | interviewEnded a b c2 d2 e2 => simp [framingStep] at hstep

/-- Same statement for a stream-end in an accepted trace: it is preceded by a
matching stream-start, unless that stream was already open initially. -/
theorem framing_end_has_start (l₁ : List ClientMsg) :
    ∀ (c c' : Option Nat) (sid : Nat) (l₂ : List ClientMsg),
      framingRun c (l₁ ++ ClientMsg.audioStreamEnd sid :: l₂) = some c' →
      (∃ sr fmt, ClientMsg.audioStreamStart sid sr fmt ∈ l₁) ∨ c = some sid := by
  induction l₁ with
  | nil =>
    intro c c' sid l₂ h
    obtain ⟨c₁, hstep, -⟩ := framingRun_cons_some _ _ _ _ h
    right
    cases c with
    | none => simp [framingStep] at hstep
    | some s =>
      by_cases hs : sid = s
      · rw [hs]
      · simp [framingStep, hs] at hstep
  | cons m l ih =>
    intro c c' sid l₂ h
    rw [List.cons_append] at h
    obtain ⟨c₁, hstep, hrest⟩ := framingRun_cons_some _ _ _ _ h
    rcases ih c₁ c' sid l₂ hrest with hstart | hc
    · obtain ⟨sr, fmt, hm⟩ := hstart
      exact Or.inl ⟨sr, fmt, List.mem_cons_of_mem _ hm⟩
    · subst hc
      cases m with
      | audioStreamStart s sr f =>
        cases c with
        | none =>
          have hss : s = sid := by simpa [framingStep] using hstep
          subst hss
          exact Or.inl ⟨sr, f, List.mem_cons_self _ _⟩
        | some s0 => simp [framingStep] at hstep
      | audioChunkResponse s d0 m0 =>
        cases c with
        | none => simp [framingStep] at hstep
        | some s0 =>
          by_cases hs : s = s0
          · have : s0 = sid := by simpa [framingStep, hs] using hstep
            exact Or.inr (by rw [this])
          · simp [framingStep, hs] at hstep
      | audioStreamEnd s =>
        cases c with
        | none => simp [framingStep] at hstep
        | some s0 =>
          by_cases hs : s = s0
          · simp [framingStep, hs] at hstep
          · simp [framingStep, hs] at hstep
      | interviewStarted i => simp [framingStep] at hstep
      | liveTranscript a b => simp [framingStep] at hstep
      | interviewEnded a b c2 d2 e2 => simp [framingStep] at hstep

/-- While a stream is open, an accepted trace cannot reach another
stream-start without a stream-end first. -/
theorem framing_open_start_has_end (l₂ : List ClientMsg) :
    ∀ (sid : Nat) (c' : Option Nat) (b sb : Nat) (fb : String) (l₃ : List ClientMsg),
      framingRun (some sid) (l₂ ++ ClientMsg.audioStreamStart b sb fb :: l₃) = some c' →
      ∃ x ∈ l₂, isStreamEndMsg x = true := by
  induction l₂ with
  | nil =>
    intro sid c' b sb fb l₃ h
    obtain ⟨c₁, hstep, -⟩ := framingRun_cons_some _ _ _ _ h
    simp [framingStep] at hstep
  | cons m l ih =>
    intro sid c' b sb fb l₃ h
    rw [List.cons_append] at h
    obtain ⟨c₁, hstep, hrest⟩ := framingRun_cons_some _ _ _ _ h
    cases m with
    | audioChunkResponse s d0 m0 =>
      by_cases hs : s = sid
      · have hc₁ : some sid = c₁ := by simpa [framingStep, hs] using hstep
        rw [← hc₁] at hrest
        obtain ⟨x, hx, he⟩ := ih sid c' b sb fb l₃ hrest
        exact ⟨x, List.mem_cons_of_mem _ hx, he⟩
      · simp [framingStep, hs] at hstep
    | audioStreamEnd s =>
      exact ⟨ClientMsg.audioStreamEnd s, List.mem_cons_self _ _, rfl⟩
    | audioStreamStart s sr f => simp [framingStep] at hstep
    | interviewStarted i => simp [framingStep] at hstep
    | liveTranscript a b2 => simp [framingStep] at hstep
    | interviewEnded a b2 c2 d2 e2 => simp [framingStep] at hstep

/-- In an accepted trace, between any two stream-starts there is a
stream-end. -/
theorem framing_two_starts_have_end (l₁ : List ClientMsg) :
    ∀ (c c' : Option Nat) (a sa : Nat) (fa : String) (l₂ : List ClientMsg)
      (b sb : Nat) (fb : String) (l₃ : List ClientMsg),
      framingRun c (l₁ ++ ClientMsg.audioStreamStart a sa fa ::
        (l₂ ++ ClientMsg.audioStreamStart b sb fb :: l₃)) = some c' →
      ∃ x ∈ l₂, isStreamEndMsg x = true := by
  induction l₁ with
  | nil =>
    intro c c' a sa fa l₂ b sb fb l₃ h
    obtain ⟨c₁, hstep, hrest⟩ := framingRun_cons_some _ _ _ _ h
    cases c with
    | none =>
      have hc₁ : some a = c₁ := by simpa [framingStep] using hstep
      rw [← hc₁] at hrest
      exact framing_open_start_has_end l₂ a c' b sb fb l₃ hrest
    | some s => simp [framingStep] at hstep
  | cons m l ih =>
    intro c c' a sa fa l₂ b sb fb l₃ h
    rw [List.cons_append] at h
    obtain ⟨c₁, hstep, hrest⟩ := framingRun_cons_some _ _ _ _ h
    exact ih c₁ c' a sa fa l₂ b sb fb l₃ hrest

/-! ## Termination lemmas -/

theorem end_interview_inactive (iv : SimpleInterview) (db : List SimpleTranscript) (env : Env)
    (h : iv.status ≠ "active") :
    end_interview iv db env = ⟨iv, [], []⟩ := by
  simp [end_interview, h]

/-- After a call on an active session, the status is 'completed' when the
normal client send succeeded and 'failed' otherwise. -/
theorem end_interview_status (iv : SimpleInterview) (db : List SimpleTranscript) (env : Env)
    (h : iv.status = "active") :
    (end_interview iv db env).interview.status =
      (if env.clientSendOk then "completed" else "failed") := by
  simp only [end_interview, h, if_pos]
  cases env.clientSendOk <;> simp

/-- The number of `interview_ended` messages one call on an active session
sends: one when the normal send or the best-effort error-path send succeeds,
zero otherwise. -/
theorem end_interview_ended_count (iv : SimpleInterview) (db : List SimpleTranscript) (env : Env)
    (h : iv.status = "active") :
    (end_interview iv db env).clientMsgs.countP isEndedMsg =
      (if env.clientSendOk || env.errorSendOk then 1 else 0) := by
  simp only [end_interview, h, if_pos]
  cases env.clientSendOk <;> cases env.errorSendOk <;>
    simp [List.countP, List.countP.go, isEndedMsg]

theorem lifecycle_inactive (iv : SimpleInterview) (db : List SimpleTranscript) (envs : List Env)
    (h : iv.status ≠ "active") :
    lifecycle iv db envs = (iv, []) := by
  induction envs with
  | nil => rfl
  | cons env rest ih =>
    simp only [lifecycle, end_interview_inactive iv db env h]
    simp [ih]

/-! ## Concrete fixtures for witnesses and counterexamples -/

/-- A freshly created session (status 'active', started at second 0). -/
def ivActive : SimpleInterview := ⟨0, "active", 0, none, 0, "", ""⟩

def ivCompleted : SimpleInterview := { ivActive with status := "completed" }

/-- An environment in which every collaborator call succeeds. -/
def envOk : Env := ⟨100, true, "A good conversation.", "", true, true, true⟩

/-- The client connection is gone: both the normal `interview_ended` send and
the best-effort send in the `except` branch raise (and the latter is
swallowed by `except: pass`). -/
def envDeadSocket : Env := { envOk with clientSendOk := false, errorSendOk := false }

/-- The summary collaborator raises, with two different error messages. -/
def envErrA : Env := { envOk with summaryOk := false, summaryErr := "error A" }

def envErrB : Env := { envOk with summaryOk := false, summaryErr := "error B" }

def dbOne : List SimpleTranscript := [⟨0, "user", "hello", 0⟩]

def dbTwo : List SimpleTranscript := [⟨0, "ai", "Hi there", 1⟩, ⟨0, "user", "hello", 0⟩]

/-! ## The claims -/

/-- C2: invoking `end_interview` again once the session's status is already
'completed' or 'failed' is a no-op: the guard `status == 'active'` fails, so
no field of the record changes, nothing is written to storage, and no message
is sent to the client (or upstream). -/
theorem end_interview_idempotent (iv : SimpleInterview) (db : List SimpleTranscript) (env : Env)
    (h : iv.status = "completed" ∨ iv.status = "failed") :
    end_interview iv db env = ⟨iv, [], []⟩ := by
  rcases h with h | h <;> exact end_interview_inactive iv db env (by simp [h])

theorem end_interview_idempotent_witness :
    end_interview ivCompleted dbOne envOk = ⟨ivCompleted, [], []⟩ :=
  end_interview_idempotent ivCompleted dbOne envOk (Or.inl rfl)

/-- C1 counterexample: a lifecycle whose one termination trigger runs against
a dead client connection emits zero `interview_ended` messages, not exactly
one: the normal send raises, the status is forced to 'failed', and the
best-effort send in the `except` branch raises too and is swallowed by
`except: pass`. -/
theorem interview_ended_zero_messages_counterexample :
    ivActive.status = "active" ∧
    (lifecycle ivActive dbOne [envDeadSocket]).2.countP isEndedMsg = 0 ∧
    (lifecycle ivActive dbOne [envDeadSocket]).1.status = "failed" := by
  refine ⟨rfl, rfl, rfl⟩

/-- C1 (amended): per connection lifecycle at most one `interview_ended`
message is emitted, regardless of which termination trigger fires first and
of the terminal status; and exactly one is emitted whenever the first
trigger's client notification (the normal send, or the best-effort error-path
send) succeeds. Only a lifecycle in which both terminal sends fail emits
none. -/
theorem interview_ended_at_most_once :
    (∀ (iv : SimpleInterview) (db : List SimpleTranscript) (envs : List Env),
        iv.status = "active" →
        (lifecycle iv db envs).2.countP isEndedMsg ≤ 1) ∧
    (∀ (iv : SimpleInterview) (db : List SimpleTranscript) (env : Env) (rest : List Env),
        iv.status = "active" → (env.clientSendOk || env.errorSendOk) = true →
        (lifecycle iv db (env :: rest)).2.countP isEndedMsg = 1) := by
  constructor
  · intro iv db envs h
    cases envs with
    | nil => simp [lifecycle]
    | cons env rest =>
      have hstat : (end_interview iv db env).interview.status ≠ "active" := by
        rw [end_interview_status iv db env h]
        cases env.clientSendOk <;> simp
      simp only [lifecycle, lifecycle_inactive _ db rest hstat, List.append_nil]
      rw [end_interview_ended_count iv db env h]
      cases env.clientSendOk <;> cases env.errorSendOk <;> simp
  · intro iv db env rest h hsend
    have hstat : (end_interview iv db env).interview.status ≠ "active" := by
      rw [end_interview_status iv db env h]
      cases env.clientSendOk <;> simp
    simp only [lifecycle, lifecycle_inactive _ db rest hstat, List.append_nil]
    rw [end_interview_ended_count iv db env h, hsend]
    rfl

/-- C5 counterexample (api/websocket.py): `save_live_transcript` there stamps
`sequence_number=self.transcript_counter`, suspends in the awaited DB create,
and increments only afterwards; the stamping tasks are concurrent (the
client-reader `text_input` branch and the receive loop). In the interleaving
below, the reader stamps 0 and suspends, the receive loop stamps 0 as well,
both increments then run, and a third append stamps 2 — the recorded sequence
numbers are 0, 0, 2: not strictly increasing, with 1 skipped. -/
theorem api_sequence_numbers_counterexample :
    (apiRecorderRun 0
        ⟨0, [], ⟨[("user", "hi"), ("user", "more")], false⟩, ⟨[("ai", "hello")], false⟩⟩
        [true, false, true, false, true, true]).db.map (fun t => t.sequenceNumber) =
      [0, 0, 2] ∧
    (apiRecorderRun 0
        ⟨0, [], ⟨[("user", "hi"), ("user", "more")], false⟩, ⟨[("ai", "hello")], false⟩⟩
        [true, false, true, false, true, true]).db.map (fun t => t.sequenceNumber) ≠
      List.range (apiRecorderRun 0
        ⟨0, [], ⟨[("user", "hi"), ("user", "more")], false⟩, ⟨[("ai", "hello")], false⟩⟩
        [true, false, true, false, true, true]).db.length :=
  ⟨rfl, by decide⟩

/-- C5 (amended): in FixedGeminiLiveHandler and WorkingGeminiLiveHandler —
whose `save_live_transcript` contains no await, so each call is atomic under
the cooperative scheduler — the sequence numbers the Transcript Recorder
assigns within one session are exactly 0, 1, 2, ... in append order: strictly
increasing from 0 with no gaps, because the call stamps the counter and
increments it exactly when it appends. (In the GeminiLiveHandler variant of
api/websocket.py the counter increment sits after an awaited DB create and
concurrent appends can duplicate a number and skip the next.) -/
theorem transcript_sequence_numbers (interviewId : Nat) (calls : List (String × String)) :
    (recorderRun interviewId (0, []) calls).2.map (fun t => t.sequenceNumber) =
      List.range (recorderRun interviewId (0, []) calls).2.length := by
  suffices hinv : ∀ (ctr : Nat) (db : List SimpleTranscript),
      db.map (fun t => t.sequenceNumber) = List.range ctr → db.length = ctr →
      ((recorderRun interviewId (ctr, db) calls).2.map (fun t => t.sequenceNumber) =
          List.range (recorderRun interviewId (ctr, db) calls).1 ∧
        (recorderRun interviewId (ctr, db) calls).2.length =
          (recorderRun interviewId (ctr, db) calls).1) by
    obtain ⟨h1, h2⟩ := hinv 0 [] (by simp) rfl
    rw [h1, h2]
  induction calls with
  | nil => intro ctr db h1 h2; exact ⟨h1, h2⟩
  | cons c rest ih =>
    intro ctr db h1 h2
    simp only [recorderRun, save_live_transcript]
    by_cases ht : pyStrip c.2 ≠ ""
    · rw [if_pos ht]
      refine ih (ctr + 1) (db ++ [⟨interviewId, c.1, pyStrip c.2, ctr⟩]) ?_ ?_
      · simp [h1, List.range_succ]
      · simp [h2]
    · rw [if_neg ht]
      exact ih ctr db h1 h2

/-- C6: in the silence scenario (frames at t = 0, 0.05, 0.1 s, none
afterward, 1.0 s silence threshold, 50 ms ticks), the batcher forwards the
batched audio once and then exactly one upstream stream-end signal, at the
first tick strictly past t = 1.1 s (t = 1.15 s here — "approximately 1.1 s"),
resetting `last_audio_time` to None; and a tick with `last_audio_time` unset
forwards nothing, so no further stream-end can follow until a new frame
arrives. -/
theorem silence_scenario_single_stream_end :
    batcherRun fixedConfig ⟨[], none⟩ silenceSchedule =
      (⟨[], none⟩,
       [(250, UpstreamMsg.realtimeAudio [1, 2, 3]), (1150, UpstreamMsg.audioStreamEnd)]) ∧
    (∀ (cfg : BatcherConfig) (st : BatcherState) (now : Nat),
        st.lastAudioTime = none → audioSenderTick cfg st now = (st, [])) := by
  constructor
  · decide
  · intro cfg st now h
    simp [audioSenderTick, h]

/-- C7 counterexample: in the WorkingGeminiLiveHandler variant a non-empty
frame of 1 byte is NOT appended to the pending list and its arrival time is
not recorded — the source gates on `len(audio_data) > 32`, not on
non-emptiness — refuting "appends ... if and only if the frame is
non-empty". -/
theorem working_submit_drops_nonempty_frame :
    ([7] : List Nat) ≠ [] ∧
    submit workingConfig ⟨[], none⟩ 100 [7] = ⟨[], none⟩ :=
  ⟨by simp, rfl⟩

/-- C7 (amended): in FixedGeminiLiveHandler `submit` appends the frame and
records its arrival time iff the frame is non-empty (zero-length frames are
silently dropped); in WorkingGeminiLiveHandler it does so iff the frame is
longer than 32 bytes (frames of 1–32 bytes are dropped too); and in every
variant, for every sequence of submitted frames and ticks, the batcher never
forwards an empty-byte payload upstream (the flush is guarded by
`len(combined_audio) > 0`). -/
theorem submit_gating_and_no_empty_forward :
    (∀ (st : BatcherState) (now : Nat) (frame : List Nat), frame ≠ [] →
        submit fixedConfig st now frame =
          ⟨st.pendingAudioChunks ++ [frame], some now⟩) ∧
    (∀ (st : BatcherState) (now : Nat), submit fixedConfig st now [] = st) ∧
    (∀ (st : BatcherState) (now : Nat) (frame : List Nat), frame.length > 32 →
        submit workingConfig st now frame =
          ⟨st.pendingAudioChunks ++ [frame], some now⟩) ∧
    (∀ (st : BatcherState) (now : Nat) (frame : List Nat), frame.length ≤ 32 →
        submit workingConfig st now frame = st) ∧
    (∀ (cfg : BatcherConfig) (st : BatcherState) (events : List (Nat × BatcherEvent))
        (t : Nat) (d : List Nat),
        (t, UpstreamMsg.realtimeAudio d) ∈ (batcherRun cfg st events).2 → d ≠ []) := by
  have tick_nonempty : ∀ (cfg : BatcherConfig) (st : BatcherState) (now : Nat) (d : List Nat),
      UpstreamMsg.realtimeAudio d ∈ (audioSenderTick cfg st now).2 → d ≠ [] := by
    intro cfg st now d hm
    cases hlat : st.lastAudioTime with
    | none => simp [audioSenderTick, hlat] at hm
    | some lat =>
      simp only [audioSenderTick, hlat] at hm
      split_ifs at hm with h1 h2 h3 <;> simp at hm
      intro hc
      rw [← hm, hc] at h2
      simp at h2
  refine ⟨?_, ?_, ?_, ?_, ?_⟩
  · intro st now frame hne
    have : frame.length > 0 := List.length_pos.mpr hne
    simp [submit, fixedConfig, this]
  · intro st now
    simp [submit, fixedConfig]
  · intro st now frame hgt
    simp [submit, workingConfig, hgt]
  · intro st now frame hle
    simp [submit, workingConfig, Nat.not_lt.mpr hle]
  · intro cfg st events
    induction events generalizing st with
    | nil => intro t d h; simp [batcherRun] at h
    | cons e rest ih =>
      intro t d h
      simp only [batcherRun, List.mem_append, List.mem_map] at h
      rcases h with ⟨m, hm, heq⟩ | h
      · have hmm : m = UpstreamMsg.realtimeAudio d := congrArg Prod.snd heq
        rw [hmm] at hm
        rcases e with ⟨te, ev⟩
        cases ev with
        | frame fd => simp [batcherStep] at hm
        | tick => exact tick_nonempty cfg st te d hm
      · exact ih _ t d h

/-- C10: the interruption handler only drains the queue and leaves the
streamer's `current_stream_id` untouched; consequently, if a stream was open
when the Interrupted event arrived, the fragments of the next AI turn are
emitted as `audio_chunk_response` messages tagged with the previous stream
identifier — no `audio_stream_end` for the superseded turn and no new
`audio_stream_start` are sent. -/
theorem interruption_keeps_stream_open (sid nextId : Nat) (buf : List QueueItem)
    (frags : List (List Nat × String)) :
    handleInterrupted buf ⟨some sid, nextId⟩ = ([], ⟨some sid, nextId⟩) ∧
    streamerRun ⟨some sid, nextId⟩ (frags.map (fun p => QueueItem.fragment p.1 p.2)) =
      (⟨some sid, nextId⟩,
       frags.map (fun p => ClientMsg.audioChunkResponse sid p.1 p.2)) := by
  refine ⟨rfl, ?_⟩
  induction frags with
  | nil => rfl
  | cons p rest ih => simp [streamerRun, streamerStep, ih]

/-- C3: in every trace the Outbound Audio Streamer emits (started, as in the
source, with no open stream and any fresh-id counter), the client never sees
two `audio_stream_start` messages without an `audio_stream_end` in between,
and every `audio_chunk_response` tagged with identifier `sid` is preceded by
the `audio_stream_start` carrying `sid`. -/
theorem audio_stream_framing (nextId : Nat) (items : List QueueItem) :
    (∀ (l₁ : List ClientMsg) (a sa : Nat) (fa : String) (l₂ : List ClientMsg)
        (b sb : Nat) (fb : String) (l₃ : List ClientMsg),
        (streamerRun ⟨none, nextId⟩ items).2 =
          l₁ ++ ClientMsg.audioStreamStart a sa fa ::
            (l₂ ++ ClientMsg.audioStreamStart b sb fb :: l₃) →
        ∃ x ∈ l₂, isStreamEndMsg x = true) ∧
    (∀ (l₁ : List ClientMsg) (sid : Nat) (d : List Nat) (mt : String) (l₂ : List ClientMsg),
        (streamerRun ⟨none, nextId⟩ items).2 =
          l₁ ++ ClientMsg.audioChunkResponse sid d mt :: l₂ →
        ∃ sr fmt, ClientMsg.audioStreamStart sid sr fmt ∈ l₁) := by
  constructor
  · intro l₁ a sa fa l₂ b sb fb l₃ htr
    have hacc := streamerRun_framing items ⟨none, nextId⟩
    rw [htr] at hacc
    exact framing_two_starts_have_end l₁ _ _ a sa fa l₂ b sb fb l₃ hacc
  · intro l₁ sid d mt l₂ htr
    have hacc := streamerRun_framing items ⟨none, nextId⟩
    rw [htr] at hacc
    rcases framing_chunk_has_start l₁ _ _ sid d mt l₂ hacc with h | h
    · exact h
    · exact absurd h (by simp)

/-- C4 counterexample: a session that has one AI audio fragment queued and
then terminates. The streamer opens stream 0 toward the client
(`audio_stream_start`, one chunk) and the termination sequence then runs to
completion — yet the client trace contains zero `audio_stream_end` messages:
the "flush" in `end_interview` is `send_audio_stream_end`, which sends
`audio_stream_end=True` upstream to the Gemini session, not an
`audio_stream_end` message to the client. The opened stream is never
closed. -/
theorem open_stream_never_closed_counterexample :
    ((streamerRun ⟨none, 0⟩ [QueueItem.fragment [1] "audio/pcm"]).2 ++
        (end_interview ivActive [] envOk).clientMsgs).countP isStreamStartMsg = 1 ∧
    ((streamerRun ⟨none, 0⟩ [QueueItem.fragment [1] "audio/pcm"]).2 ++
        (end_interview ivActive [] envOk).clientMsgs).countP isStreamEndMsg = 0 ∧
    (end_interview ivActive [] envOk).upstreamMsgs = [UpstreamMsg.audioStreamEnd] := by
  refine ⟨rfl, rfl, rfl⟩

/-- C4 (amended): every `audio_stream_end` the streamer emits closes a stream
previously opened by a matching `audio_stream_start` (streams are closed when
a turn-complete marker is consumed while open), but a stream still open at
termination is never closed toward the client: the termination sequence's
flush sends the stream-end signal upstream to the AI session, and the
termination sequence sends no `audio_stream_end` client message at all. -/
theorem stream_end_matched_and_flush_goes_upstream :
    (∀ (nextId : Nat) (items : List QueueItem) (l₁ : List ClientMsg) (sid : Nat)
        (l₂ : List ClientMsg),
        (streamerRun ⟨none, nextId⟩ items).2 = l₁ ++ ClientMsg.audioStreamEnd sid :: l₂ →
        ∃ sr fmt, ClientMsg.audioStreamStart sid sr fmt ∈ l₁) ∧
    (∀ (iv : SimpleInterview) (db : List SimpleTranscript) (env : Env),
        iv.status = "active" → env.upstreamSendOk = true →
        (end_interview iv db env).upstreamMsgs = [UpstreamMsg.audioStreamEnd]) ∧
    (∀ (iv : SimpleInterview) (db : List SimpleTranscript) (env : Env),
        ∀ m ∈ (end_interview iv db env).clientMsgs, isStreamEndMsg m = false) := by
  refine ⟨?_, ?_, ?_⟩
  · intro nextId items l₁ sid l₂ htr
    have hacc := streamerRun_framing items ⟨none, nextId⟩
    rw [htr] at hacc
    rcases framing_end_has_start l₁ _ _ sid l₂ hacc with h | h
    · exact h
    · exact absurd h (by simp)
  · intro iv db env h hup
    simp only [end_interview, h, if_pos, hup]
    cases env.clientSendOk <;> simp
  · intro iv db env m hm
    by_cases h : iv.status = "active"
    · simp only [end_interview, h, if_pos] at hm
      cases hc : env.clientSendOk <;> rw [hc] at hm
      · cases he : env.errorSendOk <;> rw [he] at hm <;> simp at hm <;>
          simp [hm, isStreamEndMsg]
      · simp at hm
        simp [hm, isStreamEndMsg]
    · rw [end_interview_inactive iv db env h] at hm
      simp at hm

/-- C8 counterexample: when the summary collaborator fails during
termination, the substituted summary is not one fixed placeholder string —
`generate_summary` returns `f"Summary generation failed due to an error:
{str(e)}"`, which embeds the error text, so two failing runs differing only
in the error message yield different summaries (both sessions still reach
'completed'). -/
theorem summary_placeholder_not_fixed_counterexample :
    envErrA.summaryOk = false ∧ envErrB.summaryOk = false ∧
    (end_interview ivActive dbOne envErrA).interview.status = "completed" ∧
    (end_interview ivActive dbOne envErrB).interview.status = "completed" ∧
    (end_interview ivActive dbOne envErrA).interview.summary ≠
      (end_interview ivActive dbOne envErrB).interview.summary := by
  refine ⟨rfl, rfl, rfl, rfl, by decide⟩

/-- C8 (amended): if the summary collaborator fails during termination, the
failure is caught at the collaborator boundary inside `generate_summary`,
termination is not blocked, the session still reaches status 'completed' and
the terminal client message carries the substituted summary; the substituted
placeholder is variant-fixed: FixedGeminiLiveHandler substitutes the fixed
prefix "Summary generation failed due to an error: " followed by the error
text, while GeminiLiveHandler (api/websocket.py) substitutes the fixed string
"Summary generation failed." -/
theorem summary_failure_nonblocking :
    (∀ (iv : SimpleInterview) (db : List SimpleTranscript) (env : Env),
        iv.status = "active" → env.summaryOk = false →
        pyStrip (assembleTranscript iv.id db) ≠ "" → env.clientSendOk = true →
        (end_interview iv db env).interview.status = "completed" ∧
        (end_interview iv db env).interview.summary =
          "Summary generation failed due to an error: " ++ env.summaryErr ∧
        (end_interview iv db env).clientMsgs =
          [ClientMsg.interviewEnded iv.id (durationFormatted (env.now - iv.startedAt))
            ("Summary generation failed due to an error: " ++ env.summaryErr)
            (some (db.filter (fun t => t.interviewId = iv.id)).length) none]) ∧
    (∀ (iv : SimpleInterview) (db : List SimpleTranscript) (env : Env),
        iv.status = "active" → env.summaryOk = false → env.clientSendOk = true →
        (end_interview_api iv db env).interview.status = "completed" ∧
        (end_interview_api iv db env).interview.summary = "Summary generation failed." ∧
        (end_interview_api iv db env).clientMsgs =
          [ClientMsg.interviewEnded iv.id (durationFormattedApi (env.now - iv.startedAt))
            "Summary generation failed." none none]) := by
  constructor
  · intro iv db env hact hfail hne hsend
    simp [end_interview, hact, hsend, generate_summary, hne, hfail]
  · intro iv db env hact hfail hsend
    simp [end_interview_api, hact, hsend, generate_summary_api, hfail]

theorem summary_failure_nonblocking_witness :
    (end_interview ivActive dbOne envErrA).interview.status = "completed" ∧
    (end_interview ivActive dbOne envErrA).interview.summary =
      "Summary generation failed due to an error: " ++ envErrA.summaryErr ∧
    (end_interview ivActive dbOne envErrA).clientMsgs =
      [ClientMsg.interviewEnded ivActive.id
        (durationFormatted (envErrA.now - ivActive.startedAt))
        ("Summary generation failed due to an error: " ++ envErrA.summaryErr)
        (some ((dbOne.filter (fun t => t.interviewId = ivActive.id)).length)) none] :=
  summary_failure_nonblocking.1 ivActive dbOne envErrA rfl rfl (by decide) rfl

/-- C9: the termination sequence sets the session's full transcript to the
newline-join of its Utterances rendered as "SPEAKER: text" with the speaker
tag upper-cased, over a list that is a permutation of exactly the session's
Utterances sorted by sequence number — in both the completed and the failed
branch. -/
theorem transcript_assembly (iv : SimpleInterview) (db : List SimpleTranscript) (env : Env)
    (h : iv.status = "active") :
    ∃ l : List SimpleTranscript,
      l.Perm (db.filter (fun t => t.interviewId = iv.id)) ∧
      l.Pairwise (fun a b => a.sequenceNumber ≤ b.sequenceNumber) ∧
      (end_interview iv db env).interview.fullTranscript =
        String.intercalate "\n" (l.map (fun t => pyUpper t.speaker ++ ": " ++ t.text)) := by
  refine ⟨(db.filter (fun t => t.interviewId = iv.id)).insertionSort
      (fun a b => a.sequenceNumber ≤ b.sequenceNumber),
    List.perm_insertionSort _ _, ?_, ?_⟩
  · haveI h1 : IsTotal SimpleTranscript (fun a b => a.sequenceNumber ≤ b.sequenceNumber) :=
      ⟨fun a b => Nat.le_total _ _⟩
    haveI h2 : IsTrans SimpleTranscript (fun a b => a.sequenceNumber ≤ b.sequenceNumber) :=
      ⟨fun _ _ _ => Nat.le_trans⟩
    exact List.sorted_insertionSort _ _
  · have hft : (end_interview iv db env).interview.fullTranscript =
        assembleTranscript iv.id db := by
      simp only [end_interview, h, if_pos]
      cases env.clientSendOk <;> simp
    rw [hft]
    rfl

theorem transcript_assembly_witness :
    ∃ l : List SimpleTranscript,
      l.Perm (dbTwo.filter (fun t => t.interviewId = ivActive.id)) ∧
      l.Pairwise (fun a b => a.sequenceNumber ≤ b.sequenceNumber) ∧
      (end_interview ivActive dbTwo envOk).interview.fullTranscript =
        String.intercalate "\n" (l.map (fun t => pyUpper t.speaker ++ ": " ++ t.text)) :=
  transcript_assembly ivActive dbTwo envOk rfl
